import Mathlib

/-!
Verification development for the `echocorecb` gateway service
(`src/200 MB access node/tower/service.py`).

The relevant Python code is shallowly embedded as executable Lean
definitions: stateful code (Redis nonce store, rate-limit counters,
artifact storage, the schema load gate) becomes explicit state passing,
fallible code returns `Except`, and the exact error message strings of
the source are kept so that distinct failure modes stay distinguishable.
Cryptographic primitives (HMAC-SHA256, SHA-256, base64) and the
JSON-body originator extraction are kept as function parameters of the
environment, since the claims under study concern the structure of the
protocol around them, not the primitives themselves.
-/

namespace EchoCore

/-! ### Python string helpers

`str.split()` with no argument splits on runs of whitespace and drops
empty tokens; `int(s)` parses an optionally `-`-signed decimal string.
Both are modelled directly over the character list. -/

/-- Accumulating worker for `pySplit`; `acc` holds the current token's
characters in reverse. -/
def pySplitAux : List Char → List Char → List String
  | [], acc => if acc = [] then [] else [String.mk acc.reverse]
  | c :: cs, acc =>
    if c.isWhitespace then
      if acc = [] then pySplitAux cs []
      else String.mk acc.reverse :: pySplitAux cs []
    else pySplitAux cs (c :: acc)

/-- Python `s.split()`: whitespace-separated tokens, empties dropped. -/
def pySplit (s : String) : List String := pySplitAux s.data []

/-- Decimal digit accumulation for `pyInt?`. -/
def pyIntAux : List Char → Nat → Option Nat
  | [], acc => some acc
  | c :: cs, acc =>
    if c.isDigit then pyIntAux cs (acc * 10 + (c.toNat - 48)) else none

/-- Python `int(s)` for an optionally negated decimal string; `none`
models the `ValueError` raised on malformed input. -/
def pyInt? (s : String) : Option Int :=
  match s.data with
  | [] => none
  | '-' :: rest =>
    if rest = [] then none else (pyIntAux rest 0).map (fun n => -(n : Int))
  | c :: cs =>
    if c = '-' then none else (pyIntAux (c :: cs) 0).map (fun n => (n : Int))

/-- Python `s.startswith(pre)` via an explicit initial-segment check on
the character lists. -/
def listIsInit : List Char → List Char → Bool
  | [], _ => true
  | _ :: _, [] => false
  | p :: ps, c :: cs => p = c && listIsInit ps cs

/-- Python `s.startswith(pre)`. -/
def pyStartsWith (s pre : String) : Bool := listIsInit pre.data s.data

/-! ### Signature verifier and replay defense (`QuantumAuthManager`)

`verify_signature` reads the request body (`"{}"` when empty), parses
the `Quantum` authorization header, extracts the originator from the
decoded payload, then runs rate limit → timestamp → nonce → secret →
HMAC comparison, raising `QuantumAuthError` with a distinct message at
each stage.  Shared-cache (Redis) round trips are modelled by explicit
state plus two infrastructure-failure flags: `_check_rate_limit`
swallows any exception and returns `True` (fail open), while
`_validate_nonce` swallows any exception and returns `False`
(fail closed). -/

/-- Deployment-fixed environment of the auth manager: configuration,
the secret lookup (`_get_secret`, collapsed to `Option` because every
failure there surfaces as `QuantumAuthError("Secret retrieval failed")`),
the originator extraction from the JSON payload, the current wall-clock
second, the crypto primitives, and the infrastructure-failure flags. -/
structure AuthEnv where
  maxClockSkew : Nat
  perOriginatorLimit : Nat
  perIpLimit : Nat
  getSecret : String → String → Option String
  extractOriginator : String → String
  now : Int
  hmacSha256 : String → String → String
  sha256Hex : String → String
  base64 : String → String
  rateLimitInfraFails : Bool
  nonceInfraFails : Bool

/-- Mutable shared state touched by `verify_signature`: the Redis nonce
keys `quantum_nonce:{originator}:{nonce}`, the durable nonce table read
by `check_nonce_exists`, and the two fixed-window rate counters.
(`_persist_nonce` is scheduled with `asyncio.create_task` and is not
awaited, so a verification's own db write is not visible to it.) -/
structure AuthState where
  redisNonces : List (String × String)
  dbNonces : List (String × String)
  origCounts : List (String × Nat)
  ipCounts : List (String × Nat)

/-- Inbound request as `verify_signature` sees it: HTTP method, URL
path, raw `Authorization` header, decoded body text, client address. -/
structure Request where
  method : String
  path : String
  authHeader : String
  body : String
  clientIp : String

/-- Body fallback of `verify_signature`: `body.decode() if body else "{}"`. -/
def pyBody (body : String) : String := if body = "" then "\x7b\x7d" else body

/-- `_parse_auth_header`: header must split into at least four tokens
starting with `Quantum`; token 5 is the nonce and defaults to `""` when
absent; version is checked before the timestamp is parsed.  Returns
`(signature, timestamp, nonce, version)`. -/
def parseAuthHeader (authHeader : String) : Except String (String × Int × String × String) :=
  if authHeader = "" then .error "Missing Authorization header"
  else
    let parts := pySplit authHeader
    if parts.length < 4 ∨ parts.headD "" ≠ "Quantum" then
      .error "Invalid Authorization header format"
    else
      let version := parts.getD 1 ""
      let signature := parts.getD 2 ""
      let timestampStr := parts.getD 3 ""
      let nonce := if parts.length > 4 then parts.getD 4 "" else ""
      if version ≠ "v1" ∧ version ≠ "v2" then
        .error ("Unsupported version: " ++ version)
      else
        match pyInt? timestampStr with
        | none => .error "Invalid timestamp format"
        | some timestamp => .ok (signature, timestamp, nonce, version)

/-- `_validate_timestamp`: `abs(current_time - timestamp) <= max_clock_skew`. -/
def validateTimestamp (env : AuthEnv) (timestamp : Int) : Bool :=
  (env.now - timestamp).natAbs ≤ env.maxClockSkew

/-- Redis `INCR` on a counter key (missing key counts as 0). -/
def bump : List (String × Nat) → String → List (String × Nat)
  | [], k => [(k, 1)]
  | (k', v) :: rest, k =>
    if k' = k then (k', v + 1) :: rest else (k', v) :: bump rest k

/-- Counter lookup with 0 default. -/
def lookupCount : List (String × Nat) → String → Nat
  | [], _ => 0
  | (k', v) :: rest, k => if k' = k then v else lookupCount rest k

/-- `_check_rate_limit`: increments both fixed-window counters and
compares against the per-originator and per-IP ceilings; any exception
in the Redis round trip yields `True` (fail open, comment in source:
"Fail open to avoid service disruption"). -/
def checkRateLimit (env : AuthEnv) (st : AuthState) (originator clientIp : String) :
    Bool × AuthState :=
  if env.rateLimitInfraFails then (true, st)
  else
    let origCounts' := bump st.origCounts originator
    let ipCounts' := bump st.ipCounts clientIp
    let originatorCount := lookupCount origCounts' originator
    let ipCount := lookupCount ipCounts' clientIp
    (decide (originatorCount ≤ env.perOriginatorLimit) &&
       decide (ipCount ≤ env.perIpLimit),
     { st with origCounts := origCounts', ipCounts := ipCounts' })

/-- `_validate_nonce`: rejects when the Redis key or the durable table
already holds the `(originator, nonce)` pair, otherwise records the
Redis key (`SETEX`) and accepts; any exception yields `False`
(fail closed). -/
def validateNonce (env : AuthEnv) (st : AuthState) (nonce originator : String) :
    Bool × AuthState :=
  if env.nonceInfraFails then (false, st)
  else if st.redisNonces.contains (originator, nonce) then (false, st)
  else if st.dbNonces.contains (originator, nonce) then (false, st)
  else (true, { st with redisNonces := (originator, nonce) :: st.redisNonces })

/-- `_compute_signature`: v1 signs `METHOD\nPATH\nTIMESTAMP\nNONCE\nPAYLOAD`;
v2 signs `v2\nMETHOD\nPATH\nTIMESTAMP\nNONCE\nSHA256(PAYLOAD)`; the HMAC
digest is base64-encoded. -/
def computeSignature (env : AuthEnv) (secret payload : String) (timestamp : Int)
    (nonce method path version : String) : Except String String :=
  if version = "v1" then
    .ok (env.base64 (env.hmacSha256 secret
      (method ++ "\n" ++ path ++ "\n" ++ toString timestamp ++ "\n" ++ nonce ++ "\n" ++ payload)))
  else if version = "v2" then
    .ok (env.base64 (env.hmacSha256 secret
      (version ++ "\n" ++ method ++ "\n" ++ path ++ "\n" ++ toString timestamp ++ "\n" ++
        nonce ++ "\n" ++ env.sha256Hex payload)))
  else .error ("Unsupported version: " ++ version)

/-- `verify_signature`: the full check sequence; each failing stage
raises `QuantumAuthError` with the message recorded here, and the final
comparison `hmac.compare_digest` is equality of the two base64 strings. -/
def verifySignature (env : AuthEnv) (st : AuthState) (r : Request) :
    Except String Bool × AuthState :=
  let payload := pyBody r.body
  match parseAuthHeader r.authHeader with
  | .error e => (.error e, st)
  | .ok (signature, timestamp, nonce, version) =>
    let originator := env.extractOriginator payload
    if originator = "" ∨ pyStartsWith originator "rs_" = false then
      (.error "Invalid or missing originator in payload", st)
    else
      let rl := checkRateLimit env st originator r.clientIp
      if rl.1 = false then (.error "Rate limit exceeded", rl.2)
      else if validateTimestamp env timestamp = false then
        (.error "Timestamp outside acceptable range", rl.2)
      else
        let nv := validateNonce env rl.2 nonce originator
        if nv.1 = false then (.error "Nonce already used or invalid", nv.2)
        else
          match env.getSecret originator version with
          | none => (.error "Secret retrieval failed", nv.2)
          | some secret =>
            match computeSignature env secret payload timestamp nonce r.method r.path version with
            | .error e => (.error e, nv.2)
            | .ok expected =>
              if signature = expected then (.ok true, nv.2)
              else (.error "Signature verification failed", nv.2)

/-! ### Spec-side signing-input definitions (for the refinement claim C2)

These two definitions follow the words of the spec's external-interface
section, to be compared against `computeSignature` above. -/

/-- Spec wording for the v1 signing input:
`METHOD\nPATH\nTIMESTAMP\nNONCE\nRAW_BODY`. -/
def specSigningInputV1 (method path : String) (timestamp : Int) (nonce rawBody : String) :
    String :=
  method ++ "\n" ++ path ++ "\n" ++ toString timestamp ++ "\n" ++ nonce ++ "\n" ++ rawBody

/-- Spec wording for the v2 signing input:
`v2\nMETHOD\nPATH\nTIMESTAMP\nNONCE\nSHA256(RAW_BODY)`. -/
def specSigningInputV2 (env : AuthEnv) (method path : String) (timestamp : Int)
    (nonce rawBody : String) : String :=
  "v2" ++ "\n" ++ method ++ "\n" ++ path ++ "\n" ++ toString timestamp ++ "\n" ++ nonce ++
    "\n" ++ env.sha256Hex rawBody

/-! ### Artifact store and ledger (`ArtifactManager` / `ArtifactStorage` /
`ArtifactLedger`)

Bytes are `List Nat`; the ledger's `artifacts` table, the final `.bin`
files, the manager's per-upload temp files, and the Redis
`storage_usage` counters become explicit state.  The Redis metadata
cache (`artifact_meta:*`) is a write-through copy of the ledger row and
is modelled as transparent. -/

/-- The ledger's `ArtifactMetadata` row, restricted to the fields the
access-control, expiry and upload paths read.  `access_control` keeps
the source's dict-of-lists shape so that `.get(permission, [])` is
modelled faithfully. -/
structure ArtifactMetadata where
  artifact_id : String
  originator : String
  size_bytes : Nat
  sha256_hash : String
  mime_type : Option String
  expires_at : Option Int
  access_control : List (String × List String)
deriving DecidableEq

/-- Python `d.get(k, [])` on the access-control dict. -/
def dictGet : List (String × List String) → String → List String
  | [], _ => []
  | (k', v) :: rest, k => if k' = k then v else dictGet rest k

/-- `ArtifactManager._check_access`: requester is the originator or is
listed under the requested permission. -/
def checkAccess (metadata : ArtifactMetadata) (requester permission : String) : Bool :=
  if metadata.originator = requester then true
  else (dictGet metadata.access_control permission).contains requester

/-- Combined durable state of the artifact subsystem: final storage
files (`{id}.bin` ↦ bytes), per-upload temp files present (by artifact
id), the ledger's `artifacts` rows, and per-originator storage usage. -/
structure ArtifactState where
  files : List (String × List Nat)
  temps : List String
  ledger : List ArtifactMetadata
  usage : List (String × Nat)
deriving DecidableEq

/-- Ledger row lookup (`get_artifact_metadata`, cache layer transparent). -/
def findMeta : List ArtifactMetadata → String → Option ArtifactMetadata
  | [], _ => none
  | m :: rest, id => if m.artifact_id = id then some m else findMeta rest id

/-- `ArtifactStorage.delete_artifact`: removes the final file (reporting
whether it existed) and any temp file for the id. -/
def storageDeleteArtifact (st : ArtifactState) (id : String) : Bool × ArtifactState :=
  (st.files.any (fun p => p.1 = id),
   { st with files := st.files.filter (fun p => p.1 ≠ id),
             temps := st.temps.filter (fun t => t ≠ id) })

/-- `ArtifactLedger.delete_artifact`: deletes the row when present. -/
def ledgerDeleteArtifact (st : ArtifactState) (id : String) : Bool × ArtifactState :=
  ((findMeta st.ledger id).isSome,
   { st with ledger := st.ledger.filter (fun m => m.artifact_id ≠ id) })

/-- `_update_storage_usage(..., "remove")`: Redis `DECRBY` (floored at 0
here since usage never exceeds recorded uploads). -/
def usageSub : List (String × Nat) → String → Nat → List (String × Nat)
  | [], _, _ => []
  | (k', v) :: rest, k, n =>
    if k' = k then (k', v - n) :: rest else (k', v) :: usageSub rest k n

/-- `_update_storage_usage(..., "add")`: Redis `INCRBY`. -/
def usageAdd : List (String × Nat) → String → Nat → List (String × Nat)
  | [], k, n => [(k, n)]
  | (k', v) :: rest, k, n =>
    if k' = k then (k', v + n) :: rest else (k', v) :: usageAdd rest k n

/-- Usage lookup with 0 default (`redis.get(...) or 0`). -/
def usageOf : List (String × Nat) → String → Nat
  | [], _ => 0
  | (k', v) :: rest, k => if k' = k then v else usageOf rest k

/-- `ArtifactManager.delete_artifact`: returns `False` when the metadata
is missing; an access-control violation raises
`StorageError("Delete permission denied")`, which the function's own
`except (StorageError, LedgerError)` handler turns into `False`;
otherwise the bytes, the ledger row and the usage counter are removed
and `True` is returned. -/
def managerDeleteArtifact (st : ArtifactState) (id requester : String) :
    Bool × ArtifactState :=
  match findMeta st.ledger id with
  | none => (false, st)
  | some metadata =>
    if checkAccess metadata requester "write" = false then (false, st)
    else
      let st1 := (storageDeleteArtifact st id).2
      let st2 := (ledgerDeleteArtifact st1 id).2
      (true, { st2 with usage := usageSub st2.usage metadata.originator metadata.size_bytes })

/-- Result record of `download_artifact` (the lazy byte stream is
represented by the stored size/hash pair the response carries). -/
structure ArtifactDownloadResult where
  artifact_id : String
  size_bytes : Nat
  sha256_hash : String
  mime_type : Option String
deriving DecidableEq

/-- `ArtifactManager.download_artifact`: not-found, access-denied (only
checked when a truthy requester is supplied, with permission `read`) and
expiry each raise a `StorageError` with the message kept here. -/
def downloadArtifact (st : ArtifactState) (now : Int) (id : String)
    (requester : Option String) : Except String ArtifactDownloadResult :=
  match findMeta st.ledger id with
  | none => .error ("Artifact '" ++ id ++ "' not found")
  | some metadata =>
    if requester.getD "" ≠ "" ∧ checkAccess metadata (requester.getD "") "read" = false then
      .error ("Access denied for artifact '" ++ id ++ "'")
    else
      match metadata.expires_at with
      | some t =>
        if t < now then .error ("Artifact '" ++ id ++ "' has expired")
        else .ok ⟨id, metadata.size_bytes, metadata.sha256_hash, metadata.mime_type⟩
      | none => .ok ⟨id, metadata.size_bytes, metadata.sha256_hash, metadata.mime_type⟩

/-- `ArtifactLedger.get_expired_artifacts`: ids of rows whose
`expires_at` is set and strictly before now. -/
def getExpiredArtifacts (st : ArtifactState) (now : Int) : List String :=
  (st.ledger.filter (fun m =>
    match m.expires_at with
    | some t => decide (t < now)
    | none => false)).map (fun m => m.artifact_id)

/-- `ArtifactManager.cleanup_expired_artifacts`: deletes each expired id
through `delete_artifact(artifact_id, "system")`. -/
def cleanupExpiredArtifacts (st : ArtifactState) (now : Int) : ArtifactState :=
  (getExpiredArtifacts st now).foldl
    (fun acc id => (managerDeleteArtifact acc id "system").2) st

/-! ### Streaming upload (`ArtifactManager.upload_artifact`) -/

/-- Upload hard size limit from the source: `100 * 1024 * 1024`. -/
def maxUploadSize : Nat := 100 * 1024 * 1024

/-- Per-originator storage quota from `_check_upload_quota`: 1 GB. -/
def storageQuota : Nat := 1024 * 1024 * 1024

/-- Total byte length of a chunk list. -/
def sumLens : List (List Nat) → Nat
  | [] => 0
  | c :: rest => c.length + sumLens rest

/-- Outcome of the streaming loop in `upload_artifact`: running total,
bytes written to the temp file, number of `file.read(8192)` chunks
consumed, and whether the loop finished without tripping the size
limit. -/
structure StreamOut where
  total : Nat
  data : List Nat
  consumed : Nat
  ok : Bool
deriving DecidableEq

/-- The `while True` read loop of `upload_artifact`: stop on an empty
chunk; otherwise count, hash and write the chunk, then raise
`StorageError` as soon as the running total exceeds the limit. -/
def uploadStreamLoop : List (List Nat) → Nat → List Nat → StreamOut
  | [], total, acc => ⟨total, acc, 0, true⟩
  | chunk :: rest, total, acc =>
    if chunk = [] then ⟨total, acc, 1, true⟩
    else
      let total' := total + chunk.length
      let acc' := acc ++ chunk
      if maxUploadSize < total' then ⟨total', acc', 1, false⟩
      else
        let out := uploadStreamLoop rest total' acc'
        ⟨out.total, out.data, out.consumed + 1, out.ok⟩

/-- Environment of the upload path: the incremental SHA-256 (hex digest
of the bytes hashed so far) and whether the `rate_limit("upload:...")`
call in `_check_upload_quota` raises `RateLimitExceededError`. -/
structure UploadEnv where
  sha256Hex : List Nat → String
  uploadRateLimited : Bool

/-- Failure path of `upload_artifact`: `_cleanup_artifact` deletes the
final file and the ledger row (none exist for a fresh id), and the
`finally` block removes the temp file and the upload lock. -/
def uploadCleanup (st : ArtifactState) (id : String) : ArtifactState :=
  { st with files := st.files.filter (fun p => p.1 ≠ id),
            temps := st.temps.filter (fun t => t ≠ id),
            ledger := st.ledger.filter (fun m => m.artifact_id ≠ id) }

/-- Result record of a successful upload. -/
structure ArtifactUploadResult where
  artifact_id : String
  size_bytes : Nat
  sha256_hash : String
deriving DecidableEq

/-- Overall outcome of `upload_artifact`: the returned value or raised
error, the durable state afterwards, and how many chunks of the input
stream were consumed. -/
structure UploadOutcome where
  result : Except String ArtifactUploadResult
  state : ArtifactState
  chunksConsumed : Nat

/-- `ArtifactManager.upload_artifact`: stream to a temp file while
hashing, enforcing the 100 MB limit mid-loop; then the quota check; then
the move to permanent storage and the ledger record.
(`ArtifactStorage.save_file` is called here but is not defined on
`ArtifactStorage` in the repository snapshot; the success branch is
Modelled from the spec: "On success, the temporary file is atomically
renamed into place ... then metadata is recorded in the Ledger".  The
claims proved below only exercise the failure branch, which is fully
source-backed.) -/
def uploadArtifact (env : UploadEnv) (st : ArtifactState) (artifact_id : String)
    (chunks : List (List Nat)) (originator : String) (mime : Option String)
    (expires : Option Int) (ac : List (String × List String)) : UploadOutcome :=
  let out := uploadStreamLoop chunks 0 []
  if out.ok = false then
    ⟨.error "File size exceeds 100MB limit", uploadCleanup st artifact_id, out.consumed⟩
  else if env.uploadRateLimited then
    ⟨.error "Upload rate limit exceeded", uploadCleanup st artifact_id, out.consumed⟩
  else if storageQuota < usageOf st.usage originator + out.total then
    ⟨.error "Storage quota exceeded", uploadCleanup st artifact_id, out.consumed⟩
  else
    let metadata : ArtifactMetadata :=
      ⟨artifact_id, originator, out.total, env.sha256Hex out.data, mime, expires, ac⟩
    ⟨.ok ⟨artifact_id, out.total, env.sha256Hex out.data⟩,
     { files := (artifact_id, out.data) :: st.files,
       temps := st.temps.filter (fun t => t ≠ artifact_id),
       ledger := metadata :: st.ledger,
       usage := usageAdd st.usage originator out.total },
     out.consumed⟩

/-! ### Sandbox executor and job processor (`Sandbox.run_command`,
`JobProcessor._process_job`)

`run_command` creates a hardened container, waits for it with
`asyncio.wait_for(..., timeout)`, and on `asyncio.TimeoutError` raises
`SandboxError("Execution timed out after {timeout} seconds.")`; the
`finally` block always attempts `container.kill(SIGKILL)` and
`container.delete(force=True)`.  `JobProcessor._process_job` marks the
job `completed` on a normal return and `failed` on any raised exception;
its status set is `queued / processing / completed / failed`. -/

/-- Docker-side behaviour for one `run_command` call: whether container
creation raises a `DockerError`, and the container's wait outcome
(`some exitCode`, or `none` for a wall-clock timeout). -/
structure DockerEnv where
  createFails : Option String
  waitOutcome : Option Int
  logsStdout : String
  logsStderr : String

/-- What happened to the execution unit: whether a container was
created/started, and whether the guaranteed-cleanup path attempted the
forcible `SIGKILL` and the forced delete. -/
structure ContainerTrace where
  created : Bool
  started : Bool
  killed : Bool
  deleted : Bool
deriving DecidableEq

/-- The fields of `SandboxResult` the job path consumes. -/
structure SandboxResultM where
  return_code : Int
  stdout : String
  stderr : String
deriving DecidableEq

/-- `Sandbox.run_command` (non-streaming): create → start → wait;
`asyncio.TimeoutError` becomes `SandboxError("Execution timed out after
{timeout} seconds.")`; the `finally` block kills and deletes the
container whenever one was created. -/
def runCommand (denv : DockerEnv) (timeout : Nat) :
    Except String SandboxResultM × ContainerTrace :=
  match denv.createFails with
  | some e => (.error ("Docker error: " ++ e), ⟨false, false, false, false⟩)
  | none =>
    match denv.waitOutcome with
    | none =>
      (.error ("Execution timed out after " ++ toString timeout ++ " seconds."),
       ⟨true, true, true, true⟩)
    | some rc =>
      (.ok ⟨rc, denv.logsStdout, denv.logsStderr⟩, ⟨true, true, true, true⟩)

/-- `JobProcessor._process_job`'s terminal status for an execution
outcome: `completed` on a normal return, `failed` on any exception —
there is no other terminal status in `_process_job`. -/
def processJobStatus (outcome : Except String SandboxResultM) : String :=
  match outcome with
  | .ok _ => "completed"
  | .error _ => "failed"

/-! ### Schema load gate (`LoadGate`, `SchemaManager.load_and_validate_schema`)

For one fixed schema key, the gate's lock-protected sections become
atomic transitions of an interleaving semantics over `n` callers.  A
caller entering `wait_for_load` either takes the memoised
result/exception, blocks on the existing in-flight event, or installs
the event and becomes the loader; the loader performs the single
backing load (Redis, falling back to the authoritative schema file) and
publishes it with `set_result` / `set_exception`, waking the blocked
callers, who re-read the published outcome.  `loads` counts backing
loads.  The load's outcome for the key is the fixed `loadResult`. -/

/-- Published state of the gate for one key: no entry, an in-flight
`asyncio.Event`, a memoised result (`_results[key]`), or a memoised
exception (`_exceptions[key]`). -/
inductive GateSt where
  | empty : GateSt
  | inFlight : GateSt
  | done : Nat → GateSt
  | failed : Nat → GateSt
deriving DecidableEq

/-- Decidable equality for `Except` values, used to evaluate the models
on concrete inputs. -/
instance exceptDecEq {ε α : Type} [DecidableEq ε] [DecidableEq α] :
    DecidableEq (Except ε α) := fun x y =>
  match x, y with
  | .ok a, .ok b => decidable_of_iff (a = b) (by simp)
  | .ok _, .error _ => isFalse (fun h => by cases h)
  | .error _, .ok _ => isFalse (fun h => by cases h)
  | .error a, .error b => decidable_of_iff (a = b) (by simp)

/-- One caller's position in `load_and_validate_schema`'s cold path:
about to enter the gate, elected loader (before the backing load),
loader holding the loaded outcome (before `set_result`/`set_exception`),
blocked on the event, or returned with an outcome. -/
inductive CallerSt where
  | start : CallerSt
  | loading : CallerSt
  | pending : CallerSt
  | waiting : CallerSt
  | finished : Except Nat Nat → CallerSt
deriving DecidableEq

/-- Shared system state for one schema key: the gate entry, every
caller's position, and the number of backing loads performed. -/
structure LoadSys (n : Nat) where
  gate : GateSt
  callers : Fin n → CallerSt
  loads : Nat

/-- One atomic step of caller `i`.  Lock-protected sections of
`wait_for_load` / `set_result` / `set_exception` are single transitions;
the backing load itself is a separate (non-locked) transition; a caller
blocked on the event can only proceed once the gate is published. -/
def loadGateStep (loadResult : Except Nat Nat) {n : Nat} (s : LoadSys n) (i : Fin n) :
    LoadSys n :=
  match s.callers i with
  | .start =>
    match s.gate with
    | .empty => { s with gate := .inFlight, callers := Function.update s.callers i .loading }
    | .inFlight => { s with callers := Function.update s.callers i .waiting }
    | .done r => { s with callers := Function.update s.callers i (.finished (.ok r)) }
    | .failed e => { s with callers := Function.update s.callers i (.finished (.error e)) }
  | .loading =>
    { s with loads := s.loads + 1, callers := Function.update s.callers i .pending }
  | .pending =>
    match loadResult with
    | .ok r =>
      { s with gate := .done r, callers := Function.update s.callers i (.finished (.ok r)) }
    | .error e =>
      { s with gate := .failed e, callers := Function.update s.callers i (.finished (.error e)) }
  | .waiting =>
    match s.gate with
    | .done r => { s with callers := Function.update s.callers i (.finished (.ok r)) }
    | .failed e => { s with callers := Function.update s.callers i (.finished (.error e)) }
    | _ => s
  | .finished _ => s

/-- Cold start: no gate entry, every caller about to request the key. -/
def loadGateInit (n : Nat) : LoadSys n := ⟨.empty, fun _ => .start, 0⟩

/-- Run an arbitrary interleaving: the scheduler picks which caller
steps next. -/
def loadGateRun (n : Nat) (loadResult : Except Nat Nat) (sched : List (Fin n)) : LoadSys n :=
  sched.foldl (loadGateStep loadResult) (loadGateInit n)

/-! ### Load-gate invariant -/

/-- Inductive invariant of the load-gate interleaving semantics for one
key: the gate entry determines the load count and the published outcome,
at most one caller is ever between gate election and publication, and
every finished caller holds the single load's outcome. -/
structure LoadInv (lr : Except Nat Nat) {n : Nat} (s : LoadSys n) : Prop where
  gateEmpty : s.gate = .empty → s.loads = 0 ∧ ∀ i, s.callers i = .start
  gateDone : ∀ r, s.gate = .done r → lr = .ok r ∧ s.loads = 1
  gateFailed : ∀ e, s.gate = .failed e → lr = .error e ∧ s.loads = 1
  loadsLe : s.loads ≤ 1
  finOut : ∀ i o, s.callers i = .finished o → o = lr ∧ s.loads = 1
  pendSt : ∀ i, s.callers i = .pending → s.loads = 1 ∧ s.gate = .inFlight
  loadSt : ∀ i, s.callers i = .loading → s.loads = 0 ∧ s.gate = .inFlight
  uniq : ∀ i j, (s.callers i = .loading ∨ s.callers i = .pending) →
      (s.callers j = .loading ∨ s.callers j = .pending) → i = j

/-! ### Concrete fixtures

Closed environments, states and requests used to evaluate the models on
concrete inputs. -/

def wEnv : AuthEnv :=
  { maxClockSkew := 300, perOriginatorLimit := 60, perIpLimit := 100,
    getSecret := fun o v => if o = "rs_alice" && v = "v1" then some "sec" else none,
    extractOriginator := fun _ => "rs_alice",
    now := 1000,
    hmacSha256 := fun _ _ => "D", sha256Hex := fun _ => "H", base64 := fun x => x,
    rateLimitInfraFails := false, nonceInfraFails := false }

def wEnvInfraDown : AuthEnv := { wEnv with rateLimitInfraFails := true, nonceInfraFails := true }

def wSt : AuthState := ⟨[], [], [], []⟩

def wReq : Request := ⟨"POST", "/api", "Quantum v1 D 1000 n1", "B", "1.2.3.4"⟩

def wReqBadSig : Request := ⟨"POST", "/api", "Quantum v1 X 1000 n1", "B", "1.2.3.4"⟩

def wReq4 : Request := ⟨"POST", "/api", "Quantum v1 D 1000", "B", "1.2.3.4"⟩

def wDockerTimeout : DockerEnv := ⟨none, none, "", ""⟩

def wUpEnv : UploadEnv := ⟨fun _ => "H", false⟩

def wUpSt : ArtifactState := ⟨[], [], [], []⟩

def wChunks : List (List Nat) := [List.replicate (maxUploadSize + 1) 0]

def wMeta : ArtifactMetadata :=
  ⟨"a1", "rs_alice", 3, "h1", none, none, [("read", []), ("write", [])]⟩

def wArtSt : ArtifactState :=
  ⟨[("a1", [1, 2, 3])], [], [wMeta], [("rs_alice", 3)]⟩

def wMetaExpired : ArtifactMetadata :=
  ⟨"a1", "rs_alice", 3, "h1", none, some 50, [("read", []), ("write", [])]⟩

def wStExpired : ArtifactState :=
  ⟨[("a1", [1, 2, 3])], [], [wMetaExpired], [("rs_alice", 3)]⟩

/-! ### Theorems -/

/-- Redis `INCR` returns the incremented counter value. -/
theorem lookupCount_bump (m : List (String × Nat)) (k : String) :
    lookupCount (bump m k) k = lookupCount m k + 1 := by
  induction m with
  | nil => simp [bump, lookupCount]
  | cons p rest ih =>
    obtain ⟨k', v⟩ := p
    by_cases h : k' = k <;> simp [bump, lookupCount, h, ih]

/-- Explicit form of `_check_rate_limit` when the shared cache is up. -/
theorem checkRateLimit_eq (env : AuthEnv) (st : AuthState) (o ip : String)
    (h : env.rateLimitInfraFails = false) :
    checkRateLimit env st o ip =
      (decide (lookupCount st.origCounts o + 1 ≤ env.perOriginatorLimit) &&
         decide (lookupCount st.ipCounts ip + 1 ≤ env.perIpLimit),
       { st with origCounts := bump st.origCounts o, ipCounts := bump st.ipCounts ip }) := by
  simp [checkRateLimit, h, lookupCount_bump]

/-- A string with prefix `rs_` is nonempty, so the originator truthiness
check passes whenever the prefix check does. -/
theorem startsWith_rs_ne_empty (s : String) (h : pyStartsWith s "rs_" = true) : ¬(s = "") := by
  intro he
  rw [he] at h
  exact absurd h (by decide)

/-- `_validate_nonce` returns `False` without touching state when the
infrastructure fails or either nonce store already has the pair. -/
theorem validateNonce_reject (env : AuthEnv) (st : AuthState) (nonce o : String)
    (h : env.nonceInfraFails = true ∨ st.redisNonces.contains (o, nonce) = true ∨
      st.dbNonces.contains (o, nonce) = true) :
    validateNonce env st nonce o = (false, st) := by
  rcases h with h | h | h
  · simp [validateNonce, h]
  · have h' : (o, nonce) ∈ st.redisNonces := by simpa using h
    simp [validateNonce, h']
  · have h' : (o, nonce) ∈ st.dbNonces := by simpa using h
    simp [validateNonce, h']

/-- Happy path of `verify_signature`: every stage passes, the nonce is
recorded, both rate counters are bumped, and `True` is returned. -/
theorem verify_success (env : AuthEnv) (st : AuthState) (r : Request)
    (sig : String) (ts : Int) (nonce version secret expected : String)
    (hparse : parseAuthHeader r.authHeader = .ok (sig, ts, nonce, version))
    (hro : pyStartsWith (env.extractOriginator (pyBody r.body)) "rs_" = true)
    (hrl : env.rateLimitInfraFails = false)
    (hnf : env.nonceInfraFails = false)
    (h1 : lookupCount st.origCounts (env.extractOriginator (pyBody r.body)) + 1 ≤ env.perOriginatorLimit)
    (h2 : lookupCount st.ipCounts r.clientIp + 1 ≤ env.perIpLimit)
    (hts : (env.now - ts).natAbs ≤ env.maxClockSkew)
    (hn1 : st.redisNonces.contains (env.extractOriginator (pyBody r.body), nonce) = false)
    (hn2 : st.dbNonces.contains (env.extractOriginator (pyBody r.body), nonce) = false)
    (hsec : env.getSecret (env.extractOriginator (pyBody r.body)) version = some secret)
    (hcomp : computeSignature env secret (pyBody r.body) ts nonce r.method r.path version = .ok expected)
    (hsig : sig = expected) :
    verifySignature env st r =
      (.ok true,
       { redisNonces := (env.extractOriginator (pyBody r.body), nonce) :: st.redisNonces,
         dbNonces := st.dbNonces,
         origCounts := bump st.origCounts (env.extractOriginator (pyBody r.body)),
         ipCounts := bump st.ipCounts r.clientIp }) := by
  have hne := startsWith_rs_ne_empty _ hro
  simp only [verifySignature, hparse]
  rw [if_neg (by rintro (h | h); exact hne h; rw [hro] at h; cases h)]
  rw [checkRateLimit_eq env st _ _ hrl]
  simp only [validateNonce, hnf, hn1, hn2, validateTimestamp]
  simp [h1, h2, hts, hsec, hcomp, hsig]

/-- Any request that reaches the nonce stage with a consumed nonce or a
failing nonce store is rejected with the replay error. -/
theorem verify_nonce_rejected (env : AuthEnv) (st : AuthState) (r : Request)
    (sig : String) (ts : Int) (nonce version : String)
    (hparse : parseAuthHeader r.authHeader = .ok (sig, ts, nonce, version))
    (hro : pyStartsWith (env.extractOriginator (pyBody r.body)) "rs_" = true)
    (hpass : env.rateLimitInfraFails = true ∨
      (env.rateLimitInfraFails = false ∧
        lookupCount st.origCounts (env.extractOriginator (pyBody r.body)) + 1 ≤ env.perOriginatorLimit ∧
        lookupCount st.ipCounts r.clientIp + 1 ≤ env.perIpLimit))
    (hts : (env.now - ts).natAbs ≤ env.maxClockSkew)
    (hn : env.nonceInfraFails = true ∨
      st.redisNonces.contains (env.extractOriginator (pyBody r.body), nonce) = true ∨
      st.dbNonces.contains (env.extractOriginator (pyBody r.body), nonce) = true) :
    (verifySignature env st r).1 = .error "Nonce already used or invalid" := by
  have hne := startsWith_rs_ne_empty _ hro
  simp only [verifySignature, hparse]
  rw [if_neg (by rintro (h | h); exact hne h; rw [hro] at h; cases h)]
  rcases hpass with hflag | ⟨hflag, h1, h2⟩
  · simp only [checkRateLimit, hflag, if_true]
    rw [validateNonce_reject env st _ _ hn]
    simp [validateTimestamp, hts]
  · rw [checkRateLimit_eq env st _ _ hflag]
    rw [validateNonce_reject _ _ _ _ (by simpa using hn)]
    simp [validateTimestamp, hts, h1, h2]

/-- A wrong signature fails only at the final constant-time comparison:
the nonce has already been recorded and the counters bumped. -/
theorem verify_sig_mismatch (env : AuthEnv) (st : AuthState) (r : Request)
    (sig : String) (ts : Int) (nonce version secret expected : String)
    (hparse : parseAuthHeader r.authHeader = .ok (sig, ts, nonce, version))
    (hro : pyStartsWith (env.extractOriginator (pyBody r.body)) "rs_" = true)
    (hrl : env.rateLimitInfraFails = false)
    (hnf : env.nonceInfraFails = false)
    (h1 : lookupCount st.origCounts (env.extractOriginator (pyBody r.body)) + 1 ≤ env.perOriginatorLimit)
    (h2 : lookupCount st.ipCounts r.clientIp + 1 ≤ env.perIpLimit)
    (hts : (env.now - ts).natAbs ≤ env.maxClockSkew)
    (hn1 : st.redisNonces.contains (env.extractOriginator (pyBody r.body), nonce) = false)
    (hn2 : st.dbNonces.contains (env.extractOriginator (pyBody r.body), nonce) = false)
    (hsec : env.getSecret (env.extractOriginator (pyBody r.body)) version = some secret)
    (hcomp : computeSignature env secret (pyBody r.body) ts nonce r.method r.path version = .ok expected)
    (hne : ¬(sig = expected)) :
    verifySignature env st r =
      (.error "Signature verification failed",
       { redisNonces := (env.extractOriginator (pyBody r.body), nonce) :: st.redisNonces,
         dbNonces := st.dbNonces,
         origCounts := bump st.origCounts (env.extractOriginator (pyBody r.body)),
         ipCounts := bump st.ipCounts r.clientIp }) := by
  have hne' := startsWith_rs_ne_empty _ hro
  simp only [verifySignature, hparse]
  rw [if_neg (by rintro (h | h); exact hne' h; rw [hro] at h; cases h)]
  rw [checkRateLimit_eq env st _ _ hrl]
  simp only [validateNonce, hnf, hn1, hn2, validateTimestamp]
  simp [h1, h2, hts, hsec, hcomp, hne]

/-- The cold-start state satisfies the load-gate invariant. -/
theorem loadInv_init (lr : Except Nat Nat) (n : Nat) : LoadInv lr (loadGateInit n) := by
  refine ⟨fun _ => ⟨rfl, fun _ => rfl⟩, ?_, ?_, ?_, ?_, ?_, ?_, ?_⟩
  · intro r h; exact absurd h (by simp [loadGateInit])
  · intro e h; exact absurd h (by simp [loadGateInit])
  · simp [loadGateInit]
  · intro i o h; exact absurd h (by simp [loadGateInit])
  · intro i h; exact absurd h (by simp [loadGateInit])
  · intro i h; exact absurd h (by simp [loadGateInit])
  · intro i j hi _; exact absurd hi (by simp [loadGateInit])

/-- Every atomic step of any caller preserves the load-gate invariant. -/
theorem loadInv_step (lr : Except Nat Nat) {n : Nat} (s : LoadSys n) (i : Fin n)
    (hI : LoadInv lr s) : LoadInv lr (loadGateStep lr s i) := by
  rcases hc : s.callers i with _ | _ | _ | _ | o
  · -- caller at .start: branch on the gate
    rcases hg : s.gate with _ | _ | r | e
    · -- gate empty: caller becomes the loader
      obtain ⟨hl0, hall⟩ := hI.gateEmpty hg
      simp only [loadGateStep, hc, hg]
      refine ⟨?_, ?_, ?_, ?_, ?_, ?_, ?_, ?_⟩
      · intro h; exact absurd h (by simp)
      · intro r h; exact absurd h (by simp)
      · intro e h; exact absurd h (by simp)
      · simpa using hI.loadsLe
      · intro j o hj
        simp only [Function.update_apply] at hj
        by_cases hji : j = i
        · rw [if_pos hji] at hj; exact absurd hj (by simp)
        · rw [if_neg hji, hall j] at hj; exact absurd hj (by simp)
      · intro j hj
        simp only [Function.update_apply] at hj
        by_cases hji : j = i
        · rw [if_pos hji] at hj; exact absurd hj (by simp)
        · rw [if_neg hji, hall j] at hj; exact absurd hj (by simp)
      · intro j hj
        exact ⟨hl0, rfl⟩
      · intro j k hj hk
        simp only [Function.update_apply] at hj hk
        by_cases hji : j = i
        · by_cases hki : k = i
          · rw [hji, hki]
          · rw [if_neg hki, hall k] at hk
            rcases hk with hk | hk <;> exact absurd hk (by simp)
        · rw [if_neg hji, hall j] at hj
          rcases hj with hj | hj <;> exact absurd hj (by simp)
    · -- gate in flight: caller blocks
      simp only [loadGateStep, hc, hg]
      refine ⟨?_, ?_, ?_, ?_, ?_, ?_, ?_, ?_⟩
      · intro h; exact absurd h (by simp)
      · intro r h; exact absurd h (by simp)
      · intro e h; exact absurd h (by simp)
      · exact hI.loadsLe
      · intro j o hj
        simp only [Function.update_apply] at hj
        by_cases hji : j = i
        · rw [if_pos hji] at hj; exact absurd hj (by simp)
        · rw [if_neg hji] at hj; exact hI.finOut j o hj
      · intro j hj
        simp only [Function.update_apply] at hj
        by_cases hji : j = i
        · rw [if_pos hji] at hj; exact absurd hj (by simp)
        · rw [if_neg hji] at hj; exact ⟨(hI.pendSt j hj).1, rfl⟩
      · intro j hj
        simp only [Function.update_apply] at hj
        by_cases hji : j = i
        · rw [if_pos hji] at hj; exact absurd hj (by simp)
        · rw [if_neg hji] at hj; exact ⟨(hI.loadSt j hj).1, rfl⟩
      · intro j k hj hk
        simp only [Function.update_apply] at hj hk
        by_cases hji : j = i
        · rw [if_pos hji] at hj
          rcases hj with hj | hj <;> exact absurd hj (by simp)
        · by_cases hki : k = i
          · rw [if_pos hki] at hk
            rcases hk with hk | hk <;> exact absurd hk (by simp)
          · rw [if_neg hji] at hj; rw [if_neg hki] at hk
            exact hI.uniq j k hj hk
    · -- gate done: caller finishes with the memoised result
      obtain ⟨hlr, hl1⟩ := hI.gateDone r hg
      simp only [loadGateStep, hc, hg]
      refine ⟨?_, ?_, ?_, ?_, ?_, ?_, ?_, ?_⟩
      · intro h; exact absurd h (by simp)
      · intro r' h
        have hr : r' = r := by simpa using h.symm
        exact ⟨hr ▸ hlr, hl1⟩
      · intro e h; exact absurd h (by simp)
      · exact hI.loadsLe
      · intro j o hj
        simp only [Function.update_apply] at hj
        by_cases hji : j = i
        · rw [if_pos hji] at hj
          have ho : o = Except.ok r := by simpa using hj.symm
          exact ⟨by rw [ho, hlr], hl1⟩
        · rw [if_neg hji] at hj; exact hI.finOut j o hj
      · intro j hj
        simp only [Function.update_apply] at hj
        by_cases hji : j = i
        · rw [if_pos hji] at hj; exact absurd hj (by simp)
        · rw [if_neg hji] at hj
          have hcon := (hI.pendSt j hj).2
          rw [hg] at hcon
          exact absurd hcon (by simp)
      · intro j hj
        simp only [Function.update_apply] at hj
        by_cases hji : j = i
        · rw [if_pos hji] at hj; exact absurd hj (by simp)
        · rw [if_neg hji] at hj
          have hcon := (hI.loadSt j hj).2
          rw [hg] at hcon
          exact absurd hcon (by simp)
      · intro j k hj hk
        simp only [Function.update_apply] at hj hk
        by_cases hji : j = i
        · rw [if_pos hji] at hj
          rcases hj with hj | hj <;> exact absurd hj (by simp)
        · by_cases hki : k = i
          · rw [if_pos hki] at hk
            rcases hk with hk | hk <;> exact absurd hk (by simp)
          · rw [if_neg hji] at hj; rw [if_neg hki] at hk
            exact hI.uniq j k hj hk
    · -- gate failed: caller finishes with the memoised exception
      obtain ⟨hlr, hl1⟩ := hI.gateFailed e hg
      simp only [loadGateStep, hc, hg]
      refine ⟨?_, ?_, ?_, ?_, ?_, ?_, ?_, ?_⟩
      · intro h; exact absurd h (by simp)
      · intro r' h; exact absurd h (by simp)
      · intro e' h
        have he : e' = e := by simpa using h.symm
        exact ⟨he ▸ hlr, hl1⟩
      · exact hI.loadsLe
      · intro j o hj
        simp only [Function.update_apply] at hj
        by_cases hji : j = i
        · rw [if_pos hji] at hj
          have ho : o = Except.error e := by simpa using hj.symm
          exact ⟨by rw [ho, hlr], hl1⟩
        · rw [if_neg hji] at hj; exact hI.finOut j o hj
      · intro j hj
        simp only [Function.update_apply] at hj
        by_cases hji : j = i
        · rw [if_pos hji] at hj; exact absurd hj (by simp)
        · rw [if_neg hji] at hj
          have hcon := (hI.pendSt j hj).2
          rw [hg] at hcon
          exact absurd hcon (by simp)
      · intro j hj
        simp only [Function.update_apply] at hj
        by_cases hji : j = i
        · rw [if_pos hji] at hj; exact absurd hj (by simp)
        · rw [if_neg hji] at hj
          have hcon := (hI.loadSt j hj).2
          rw [hg] at hcon
          exact absurd hcon (by simp)
      · intro j k hj hk
        simp only [Function.update_apply] at hj hk
        by_cases hji : j = i
        · rw [if_pos hji] at hj
          rcases hj with hj | hj <;> exact absurd hj (by simp)
        · by_cases hki : k = i
          · rw [if_pos hki] at hk
            rcases hk with hk | hk <;> exact absurd hk (by simp)
          · rw [if_neg hji] at hj; rw [if_neg hki] at hk
            exact hI.uniq j k hj hk
  · -- caller at .loading: performs the backing load
    obtain ⟨hl0, hgf⟩ := hI.loadSt i hc
    simp only [loadGateStep, hc]
    refine ⟨?_, ?_, ?_, ?_, ?_, ?_, ?_, ?_⟩
    · intro h; rw [hgf] at h; exact absurd h (by simp)
    · intro r h; rw [hgf] at h; exact absurd h (by simp)
    · intro e h; rw [hgf] at h; exact absurd h (by simp)
    · simp [hl0]
    · intro j o hj
      simp only [Function.update_apply] at hj
      by_cases hji : j = i
      · rw [if_pos hji] at hj; exact absurd hj (by simp)
      · rw [if_neg hji] at hj
        exact ⟨(hI.finOut j o hj).1, by simp [hl0]⟩
    · intro j hj
      exact ⟨by simp [hl0], hgf⟩
    · intro j hj
      simp only [Function.update_apply] at hj
      by_cases hji : j = i
      · rw [if_pos hji] at hj; exact absurd hj (by simp)
      · rw [if_neg hji] at hj
        exact absurd (hI.uniq j i (Or.inl hj) (Or.inl hc)) hji
    · intro j k hj hk
      simp only [Function.update_apply] at hj hk
      by_cases hji : j = i
      · by_cases hki : k = i
        · rw [hji, hki]
        · rw [if_neg hki] at hk
          exact absurd (hI.uniq k i hk (Or.inl hc)) hki
      · rw [if_neg hji] at hj
        exact absurd (hI.uniq j i hj (Or.inl hc)) hji
  · -- caller at .pending: publishes the outcome
    obtain ⟨hl1, hgf⟩ := hI.pendSt i hc
    rcases hlr : lr with e | r
    · -- load raised: set_exception publishes the error
      simp only [loadGateStep, hc, hlr]
      refine ⟨?_, ?_, ?_, ?_, ?_, ?_, ?_, ?_⟩
      · intro h; exact absurd h (by simp)
      · intro r' h; exact absurd h (by simp)
      · intro e' h
        have he : e' = e := by simpa using h.symm
        exact ⟨by rw [he], hl1⟩
      · exact hI.loadsLe
      · intro j o hj
        simp only [Function.update_apply] at hj
        by_cases hji : j = i
        · rw [if_pos hji] at hj
          have ho : o = Except.error e := by simpa using hj.symm
          exact ⟨ho, hl1⟩
        · rw [if_neg hji] at hj
          exact ⟨(hI.finOut j o hj).1.trans hlr, (hI.finOut j o hj).2⟩
      · intro j hj
        simp only [Function.update_apply] at hj
        by_cases hji : j = i
        · rw [if_pos hji] at hj; exact absurd hj (by simp)
        · rw [if_neg hji] at hj
          exact absurd (hI.uniq j i (Or.inr hj) (Or.inr hc)) hji
      · intro j hj
        simp only [Function.update_apply] at hj
        by_cases hji : j = i
        · rw [if_pos hji] at hj; exact absurd hj (by simp)
        · rw [if_neg hji] at hj
          exact absurd (hI.uniq j i (Or.inl hj) (Or.inr hc)) hji
      · intro j k hj hk
        simp only [Function.update_apply] at hj hk
        by_cases hji : j = i
        · by_cases hki : k = i
          · rw [hji, hki]
          · rw [if_neg hki] at hk
            exact absurd (hI.uniq k i hk (Or.inr hc)) hki
        · rw [if_neg hji] at hj
          exact absurd (hI.uniq j i hj (Or.inr hc)) hji
    · -- load succeeded: set_result publishes the schema
      simp only [loadGateStep, hc, hlr]
      refine ⟨?_, ?_, ?_, ?_, ?_, ?_, ?_, ?_⟩
      · intro h; exact absurd h (by simp)
      · intro r' h
        have hr : r' = r := by simpa using h.symm
        exact ⟨by rw [hr], hl1⟩
      · intro e' h; exact absurd h (by simp)
      · exact hI.loadsLe
      · intro j o hj
        simp only [Function.update_apply] at hj
        by_cases hji : j = i
        · rw [if_pos hji] at hj
          have ho : o = Except.ok r := by simpa using hj.symm
          exact ⟨ho, hl1⟩
        · rw [if_neg hji] at hj
          exact ⟨(hI.finOut j o hj).1.trans hlr, (hI.finOut j o hj).2⟩
      · intro j hj
        simp only [Function.update_apply] at hj
        by_cases hji : j = i
        · rw [if_pos hji] at hj; exact absurd hj (by simp)
        · rw [if_neg hji] at hj
          exact absurd (hI.uniq j i (Or.inr hj) (Or.inr hc)) hji
      · intro j hj
        simp only [Function.update_apply] at hj
        by_cases hji : j = i
        · rw [if_pos hji] at hj; exact absurd hj (by simp)
        · rw [if_neg hji] at hj
          exact absurd (hI.uniq j i (Or.inl hj) (Or.inr hc)) hji
      · intro j k hj hk
        simp only [Function.update_apply] at hj hk
        by_cases hji : j = i
        · by_cases hki : k = i
          · rw [hji, hki]
          · rw [if_neg hki] at hk
            exact absurd (hI.uniq k i hk (Or.inr hc)) hki
        · rw [if_neg hji] at hj
          exact absurd (hI.uniq j i hj (Or.inr hc)) hji
  · -- caller at .waiting: can proceed only once the gate is published
    rcases hg : s.gate with _ | _ | r | e
    · simp only [loadGateStep, hc, hg]
      exact hI
    · simp only [loadGateStep, hc, hg]
      exact hI
    · -- woken by a published result
      obtain ⟨hlr, hl1⟩ := hI.gateDone r hg
      simp only [loadGateStep, hc, hg]
      refine ⟨?_, ?_, ?_, ?_, ?_, ?_, ?_, ?_⟩
      · intro h; exact absurd h (by simp)
      · intro r' h
        have hr : r' = r := by simpa using h.symm
        exact ⟨hr ▸ hlr, hl1⟩
      · intro e h; exact absurd h (by simp)
      · exact hI.loadsLe
      · intro j o hj
        simp only [Function.update_apply] at hj
        by_cases hji : j = i
        · rw [if_pos hji] at hj
          have ho : o = Except.ok r := by simpa using hj.symm
          exact ⟨by rw [ho, hlr], hl1⟩
        · rw [if_neg hji] at hj; exact hI.finOut j o hj
      · intro j hj
        simp only [Function.update_apply] at hj
        by_cases hji : j = i
        · rw [if_pos hji] at hj; exact absurd hj (by simp)
        · rw [if_neg hji] at hj
          have hcon := (hI.pendSt j hj).2
          rw [hg] at hcon
          exact absurd hcon (by simp)
      · intro j hj
        simp only [Function.update_apply] at hj
        by_cases hji : j = i
        · rw [if_pos hji] at hj; exact absurd hj (by simp)
        · rw [if_neg hji] at hj
          have hcon := (hI.loadSt j hj).2
          rw [hg] at hcon
          exact absurd hcon (by simp)
      · intro j k hj hk
        simp only [Function.update_apply] at hj hk
        by_cases hji : j = i
        · rw [if_pos hji] at hj
          rcases hj with hj | hj <;> exact absurd hj (by simp)
        · by_cases hki : k = i
          · rw [if_pos hki] at hk
            rcases hk with hk | hk <;> exact absurd hk (by simp)
          · rw [if_neg hji] at hj; rw [if_neg hki] at hk
            exact hI.uniq j k hj hk
    · -- woken by a published exception
      obtain ⟨hlr, hl1⟩ := hI.gateFailed e hg
      simp only [loadGateStep, hc, hg]
      refine ⟨?_, ?_, ?_, ?_, ?_, ?_, ?_, ?_⟩
      · intro h; exact absurd h (by simp)
      · intro r h; exact absurd h (by simp)
      · intro e' h
        have he : e' = e := by simpa using h.symm
        exact ⟨he ▸ hlr, hl1⟩
      · exact hI.loadsLe
      · intro j o hj
        simp only [Function.update_apply] at hj
        by_cases hji : j = i
        · rw [if_pos hji] at hj
          have ho : o = Except.error e := by simpa using hj.symm
          exact ⟨by rw [ho, hlr], hl1⟩
        · rw [if_neg hji] at hj; exact hI.finOut j o hj
      · intro j hj
        simp only [Function.update_apply] at hj
        by_cases hji : j = i
        · rw [if_pos hji] at hj; exact absurd hj (by simp)
        · rw [if_neg hji] at hj
          have hcon := (hI.pendSt j hj).2
          rw [hg] at hcon
          exact absurd hcon (by simp)
      · intro j hj
        simp only [Function.update_apply] at hj
        by_cases hji : j = i
        · rw [if_pos hji] at hj; exact absurd hj (by simp)
        · rw [if_neg hji] at hj
          have hcon := (hI.loadSt j hj).2
          rw [hg] at hcon
          exact absurd hcon (by simp)
      · intro j k hj hk
        simp only [Function.update_apply] at hj hk
        by_cases hji : j = i
        · rw [if_pos hji] at hj
          rcases hj with hj | hj <;> exact absurd hj (by simp)
        · by_cases hki : k = i
          · rw [if_pos hki] at hk
            rcases hk with hk | hk <;> exact absurd hk (by simp)
          · rw [if_neg hji] at hj; rw [if_neg hki] at hk
            exact hI.uniq j k hj hk
  · -- caller already finished: no transition
    simp only [loadGateStep, hc]
    exact hI

/-- The invariant holds along any interleaving. -/
theorem loadInv_run (lr : Except Nat Nat) {n : Nat} (sched : List (Fin n)) :
    ∀ s : LoadSys n, LoadInv lr s → LoadInv lr (sched.foldl (loadGateStep lr) s) := by
  induction sched with
  | nil => intro s h; exact h
  | cons i rest ih => intro s h; exact ih _ (loadInv_step lr s i h)

/-- If the stream totals more than the limit, the read loop of
`upload_artifact` stops with `ok = false` exactly at the first chunk
whose running total passes the limit. -/
theorem uploadStreamLoop_overflow (chunks : List (List Nat)) :
    ∀ total acc, (∀ c ∈ chunks, c ≠ []) → total ≤ maxUploadSize →
    maxUploadSize < total + sumLens chunks →
    (uploadStreamLoop chunks total acc).ok = false ∧
    1 ≤ (uploadStreamLoop chunks total acc).consumed ∧
    (uploadStreamLoop chunks total acc).consumed ≤ chunks.length ∧
    maxUploadSize < total + sumLens (chunks.take (uploadStreamLoop chunks total acc).consumed) ∧
    ∀ j < (uploadStreamLoop chunks total acc).consumed,
      total + sumLens (chunks.take j) ≤ maxUploadSize := by
  induction chunks with
  | nil =>
    intro total acc _ hle hover
    simp [sumLens] at hover
    omega
  | cons c rest ih =>
    intro total acc hne hle hover
    have hc : ¬(c = []) := hne c (by simp)
    by_cases hov : maxUploadSize < total + c.length
    · simp only [uploadStreamLoop, if_neg hc, if_pos hov]
      refine ⟨trivial, le_refl 1, by simp, ?_, ?_⟩
      · simp only [List.take_succ_cons, List.take_zero, sumLens]
        omega
      · intro j hj
        interval_cases j
        simp only [List.take_zero, sumLens]
        omega
    · push_neg at hov
      have hrest :=
        ih (total + c.length) (acc ++ c)
          (fun x hx => hne x (List.mem_cons_of_mem _ hx)) hov
          (by simp [sumLens] at hover ⊢; omega)
      simp only [uploadStreamLoop, if_neg hc,
        if_neg (by omega : ¬maxUploadSize < total + c.length)]
      obtain ⟨hok, h1, hlen, htake, hall⟩ := hrest
      refine ⟨hok, by omega, by simpa using hlen, ?_, ?_⟩
      · simp only [List.take_succ_cons, sumLens]
        omega
      · intro j hj
        match j with
        | 0 =>
          simp only [List.take_zero, sumLens]
          omega
        | Nat.succ j' =>
          have hj' : j' < (uploadStreamLoop rest (total + c.length) (acc ++ c)).consumed := by
            simpa using hj
          have hj2 := hall j' hj'
          simp only [List.take_succ_cons, sumLens]
          omega

/-- The access-denied and not-found download errors carry distinct
messages, whatever the artifact id. -/
theorem download_error_messages_distinct (id : String) :
    ("Access denied for artifact '" ++ id ++ "'" : String) ≠
      "Artifact '" ++ id ++ "' not found" := by
  intro h
  have hlen := congrArg String.length h
  rw [String.length_append, String.length_append, String.length_append,
    String.length_append] at hlen
  have h1 : ("Access denied for artifact '" : String).length = 28 := rfl
  have h2 : ("'" : String).length = 1 := rfl
  have h3 : ("Artifact '" : String).length = 10 := rfl
  have h4 : ("' not found" : String).length = 11 := rfl
  rw [h1, h2, h3, h4] at hlen
  omega

/-- C2: for every environment, secret, method, path, timestamp, nonce and
raw body, the signature `_compute_signature` recomputes is
`base64(HMAC-SHA256(secret, signing_input))` with the v1 signing input
`METHOD\nPATH\nTIMESTAMP\nNONCE\nRAW_BODY` and the v2 signing input
`v2\nMETHOD\nPATH\nTIMESTAMP\nNONCE\nSHA256(RAW_BODY)`. -/
theorem computeSignature_matches_spec (env : AuthEnv) (secret payload : String)
    (timestamp : Int) (nonce method path : String) :
    computeSignature env secret payload timestamp nonce method path "v1" =
      .ok (env.base64 (env.hmacSha256 secret
        (specSigningInputV1 method path timestamp nonce payload))) ∧
    computeSignature env secret payload timestamp nonce method path "v2" =
      .ok (env.base64 (env.hmacSha256 secret
        (specSigningInputV2 env method path timestamp nonce payload))) := by
  constructor <;> rfl

/-- C1: a valid signed request with a fresh nonce and in-window timestamp
verifies successfully, and replaying the identical envelope fails with
the replay error "Nonce already used or invalid". -/
theorem verify_accepts_once_then_replays (env : AuthEnv) (st : AuthState) (r : Request)
    (sig : String) (ts : Int) (nonce version secret expected : String)
    (hparse : parseAuthHeader r.authHeader = .ok (sig, ts, nonce, version))
    (hro : pyStartsWith (env.extractOriginator (pyBody r.body)) "rs_" = true)
    (hrl : env.rateLimitInfraFails = false)
    (hnf : env.nonceInfraFails = false)
    (h1 : lookupCount st.origCounts (env.extractOriginator (pyBody r.body)) + 2 ≤ env.perOriginatorLimit)
    (h2 : lookupCount st.ipCounts r.clientIp + 2 ≤ env.perIpLimit)
    (hts : (env.now - ts).natAbs ≤ env.maxClockSkew)
    (hn1 : st.redisNonces.contains (env.extractOriginator (pyBody r.body), nonce) = false)
    (hn2 : st.dbNonces.contains (env.extractOriginator (pyBody r.body), nonce) = false)
    (hsec : env.getSecret (env.extractOriginator (pyBody r.body)) version = some secret)
    (hcomp : computeSignature env secret (pyBody r.body) ts nonce r.method r.path version = .ok expected)
    (hsig : sig = expected) :
    (verifySignature env st r).1 = .ok true ∧
    (verifySignature env (verifySignature env st r).2 r).1 =
      .error "Nonce already used or invalid" := by
  have hsucc := verify_success env st r sig ts nonce version secret expected hparse hro hrl hnf
    (by omega) (by omega) hts hn1 hn2 hsec hcomp hsig
  refine ⟨by rw [hsucc], ?_⟩
  rw [hsucc]
  apply verify_nonce_rejected env _ r sig ts nonce version hparse hro ?_ hts ?_
  · right
    refine ⟨hrl, ?_, ?_⟩ <;> simp only [lookupCount_bump] <;> omega
  · right; left; simp

theorem verify_accepts_once_then_replays_witness :
    (verifySignature wEnv wSt wReq).1 = .ok true ∧
    (verifySignature wEnv (verifySignature wEnv wSt wReq).2 wReq).1 =
      .error "Nonce already used or invalid" :=
  verify_accepts_once_then_replays wEnv wSt wReq "D" 1000 "n1" "v1" "sec" "D"
    (by decide) (by decide) rfl rfl (by decide) (by decide) (by decide) (by decide)
    (by decide) (by decide) (by decide) rfl

/-- C3: when the shared-cache round trip fails, the rate-limit check
fails open (request treated as under the limit, state untouched) while
the nonce check fails closed: any request that reaches the nonce stage
is rejected with the nonce error, regardless of the other fields. -/
theorem infra_failure_asymmetry (env : AuthEnv) (st : AuthState)
    (hrl : env.rateLimitInfraFails = true) (hnf : env.nonceInfraFails = true) :
    (∀ o ip, checkRateLimit env st o ip = (true, st)) ∧
    (∀ nonce o, validateNonce env st nonce o = (false, st)) ∧
    (∀ (r : Request) (sig : String) (ts : Int) (nonce version : String),
      parseAuthHeader r.authHeader = .ok (sig, ts, nonce, version) →
      pyStartsWith (env.extractOriginator (pyBody r.body)) "rs_" = true →
      (env.now - ts).natAbs ≤ env.maxClockSkew →
      (verifySignature env st r).1 = .error "Nonce already used or invalid") := by
  refine ⟨fun o ip => by simp [checkRateLimit, hrl],
          fun nonce o => by simp [validateNonce, hnf],
          fun r sig ts nonce version hp hro hts =>
            verify_nonce_rejected env st r sig ts nonce version hp hro (Or.inl hrl) hts
              (Or.inl hnf)⟩

theorem infra_failure_asymmetry_witness :
    checkRateLimit wEnvInfraDown wSt "rs_alice" "1.2.3.4" = (true, wSt) ∧
    validateNonce wEnvInfraDown wSt "n1" "rs_alice" = (false, wSt) ∧
    (verifySignature wEnvInfraDown wSt wReq).1 = .error "Nonce already used or invalid" :=
  ⟨(infra_failure_asymmetry wEnvInfraDown wSt rfl rfl).1 "rs_alice" "1.2.3.4",
   (infra_failure_asymmetry wEnvInfraDown wSt rfl rfl).2.1 "n1" "rs_alice",
   (infra_failure_asymmetry wEnvInfraDown wSt rfl rfl).2.2 wReq "D" 1000 "n1" "v1"
     (by decide) (by decide) (by decide)⟩

/-- C9: a request that passes the timestamp and nonce stages but fails
the final signature comparison still consumes its nonce, so resubmitting
the same request with the corrected signature fails with the replay
error rather than a signature error. -/
theorem sig_failure_consumes_nonce (env : AuthEnv) (st : AuthState) (r r2 : Request)
    (sig sig2 : String) (ts : Int) (nonce version secret expected : String)
    (hparse : parseAuthHeader r.authHeader = .ok (sig, ts, nonce, version))
    (hparse2 : parseAuthHeader r2.authHeader = .ok (sig2, ts, nonce, version))
    (hbody : r2.body = r.body) (hip : r2.clientIp = r.clientIp)
    (hro : pyStartsWith (env.extractOriginator (pyBody r.body)) "rs_" = true)
    (hrl : env.rateLimitInfraFails = false)
    (hnf : env.nonceInfraFails = false)
    (h1 : lookupCount st.origCounts (env.extractOriginator (pyBody r.body)) + 2 ≤ env.perOriginatorLimit)
    (h2 : lookupCount st.ipCounts r.clientIp + 2 ≤ env.perIpLimit)
    (hts : (env.now - ts).natAbs ≤ env.maxClockSkew)
    (hn1 : st.redisNonces.contains (env.extractOriginator (pyBody r.body), nonce) = false)
    (hn2 : st.dbNonces.contains (env.extractOriginator (pyBody r.body), nonce) = false)
    (hsec : env.getSecret (env.extractOriginator (pyBody r.body)) version = some secret)
    (hcomp : computeSignature env secret (pyBody r.body) ts nonce r.method r.path version = .ok expected)
    (hwrong : ¬(sig = expected)) (_hright : sig2 = expected) :
    (verifySignature env st r).1 = .error "Signature verification failed" ∧
    (verifySignature env st r).2.redisNonces.contains
      (env.extractOriginator (pyBody r.body), nonce) = true ∧
    (verifySignature env (verifySignature env st r).2 r2).1 =
      .error "Nonce already used or invalid" := by
  have hmis := verify_sig_mismatch env st r sig ts nonce version secret expected hparse hro hrl
    hnf (by omega) (by omega) hts hn1 hn2 hsec hcomp hwrong
  refine ⟨by rw [hmis], by rw [hmis]; simp, ?_⟩
  rw [hmis]
  apply verify_nonce_rejected env _ r2 sig2 ts nonce version hparse2
    (by rw [hbody]; exact hro) ?_ hts ?_
  · right
    refine ⟨hrl, ?_, ?_⟩
    · rw [hbody]; simp only [lookupCount_bump]; omega
    · rw [hip]; simp only [lookupCount_bump]; omega
  · right; left; rw [hbody]; simp

theorem sig_failure_consumes_nonce_witness :
    (verifySignature wEnv wSt wReqBadSig).1 = .error "Signature verification failed" ∧
    (verifySignature wEnv wSt wReqBadSig).2.redisNonces.contains
      (wEnv.extractOriginator (pyBody wReqBadSig.body), "n1") = true ∧
    (verifySignature wEnv (verifySignature wEnv wSt wReqBadSig).2 wReq).1 =
      .error "Nonce already used or invalid" :=
  sig_failure_consumes_nonce wEnv wSt wReqBadSig wReq "X" "D" 1000 "n1" "v1" "sec" "D"
    (by decide) (by decide) rfl rfl (by decide) rfl rfl (by decide) (by decide) (by decide)
    (by decide) (by decide) (by decide) (by decide) (by decide) rfl

/-- C10: a header of exactly four whitespace-separated tokens
`Quantum <version> <signature> <timestamp>` parses successfully with the
nonce taken to be the empty string, and a request carrying such a header
can pass full verification with that empty nonce. -/
theorem parse_four_tokens_empty_nonce (h v sig tstr : String) (ts : Int)
    (hsplit : pySplit h = ["Quantum", v, sig, tstr])
    (hv : v = "v1" ∨ v = "v2")
    (ht : pyInt? tstr = some ts)
    (hne : ¬(h = "")) :
    parseAuthHeader h = .ok (sig, ts, "", v) ∧
    ∀ (env : AuthEnv) (st : AuthState) (r : Request) (secret expected : String),
      r.authHeader = h →
      pyStartsWith (env.extractOriginator (pyBody r.body)) "rs_" = true →
      env.rateLimitInfraFails = false → env.nonceInfraFails = false →
      lookupCount st.origCounts (env.extractOriginator (pyBody r.body)) + 1 ≤
        env.perOriginatorLimit →
      lookupCount st.ipCounts r.clientIp + 1 ≤ env.perIpLimit →
      (env.now - ts).natAbs ≤ env.maxClockSkew →
      st.redisNonces.contains (env.extractOriginator (pyBody r.body), "") = false →
      st.dbNonces.contains (env.extractOriginator (pyBody r.body), "") = false →
      env.getSecret (env.extractOriginator (pyBody r.body)) v = some secret →
      computeSignature env secret (pyBody r.body) ts "" r.method r.path v = .ok expected →
      sig = expected →
      (verifySignature env st r).1 = .ok true := by
  have hp : parseAuthHeader h = .ok (sig, ts, "", v) := by
    simp only [parseAuthHeader, hsplit]
    rw [if_neg hne]
    rw [if_neg (by simp)]
    rcases hv with hv | hv <;>
      simp [hv, List.getD, ht]
  refine ⟨hp, fun env st r secret expected hr hro hrl hnf h1 h2 hts hn1 hn2 hsec hcomp hsig => ?_⟩
  rw [verify_success env st r sig ts "" v secret expected (by rw [hr]; exact hp) hro hrl hnf
    h1 h2 hts hn1 hn2 hsec hcomp hsig]

theorem parse_four_tokens_empty_nonce_witness :
    parseAuthHeader "Quantum v1 D 1000" = .ok ("D", 1000, "", "v1") ∧
    (verifySignature wEnv wSt wReq4).1 = .ok true :=
  ⟨(parse_four_tokens_empty_nonce "Quantum v1 D 1000" "v1" "D" "1000" 1000
      (by decide) (Or.inl rfl) (by decide) (by decide)).1,
   (parse_four_tokens_empty_nonce "Quantum v1 D 1000" "v1" "D" "1000" 1000
      (by decide) (Or.inl rfl) (by decide) (by decide)).2 wEnv wSt wReq4 "sec" "D"
      rfl (by decide) rfl rfl (by decide) (by decide) (by decide) (by decide) (by decide)
      (by decide) (by decide) rfl⟩

/-- C8: under any interleaving of `n` concurrent callers requesting a
cold schema key, the backing source is loaded at most once, and every
caller that completes received the identical load outcome (the single
load's validated schema or its error) with exactly one load performed —
no caller triggers a load of its own. -/
theorem loadGate_single_load (n : Nat) (loadResult : Except Nat Nat) (sched : List (Fin n)) :
    (loadGateRun n loadResult sched).loads ≤ 1 ∧
    ∀ i o, (loadGateRun n loadResult sched).callers i = .finished o →
      o = loadResult ∧ (loadGateRun n loadResult sched).loads = 1 := by
  have h := loadInv_run loadResult sched (loadGateInit n) (loadInv_init loadResult n)
  exact ⟨h.loadsLe, h.finOut⟩

theorem loadGate_single_load_witness :
    (loadGateRun 2 (Except.ok 5) [0, 0, 0, 1, 1]).loads ≤ 1 ∧
    (loadGateRun 2 (Except.ok 5) [0, 0, 0, 1, 1]).callers 0 = .finished (.ok 5) ∧
    ((Except.ok 5 : Except Nat Nat) = Except.ok 5 ∧
      (loadGateRun 2 (Except.ok 5) [0, 0, 0, 1, 1]).loads = 1) :=
  ⟨(loadGate_single_load 2 (Except.ok 5) [0, 0, 0, 1, 1]).1,
   by decide,
   (loadGate_single_load 2 (Except.ok 5) [0, 0, 0, 1, 1]).2 0 (Except.ok 5) (by decide)⟩

/-- C4 counterexample: on the wall-clock-timeout path of
`Sandbox.run_command` processed by `JobProcessor._process_job`, the
container is forcibly killed and deleted, but the job's terminal status
is `"failed"` — there is no `timedOut` status, contradicting the claim
that the job is marked `timedOut` and never `failed`. -/
theorem timeout_job_marked_failed :
    (runCommand wDockerTimeout 1).1 = .error "Execution timed out after 1 seconds." ∧
    (runCommand wDockerTimeout 1).2.killed = true ∧
    (runCommand wDockerTimeout 1).2.deleted = true ∧
    processJobStatus (runCommand wDockerTimeout 1).1 = "failed" ∧
    ¬(processJobStatus (runCommand wDockerTimeout 1).1 = "timedOut") := by
  refine ⟨by decide, by decide, by decide, by decide, by decide⟩

/-- C4 amended: on timeout the execution unit is forcibly terminated
(SIGKILL plus forced delete in the guaranteed-cleanup block) and
`run_command` raises `SandboxError("Execution timed out after N
seconds.")`; a job whose execution raises is marked `failed` by
`JobProcessor._process_job`, whose only terminal statuses are
`completed` and `failed`. -/
theorem timeout_path_amended (denv : DockerEnv) (t : Nat)
    (hc : denv.createFails = none) (hw : denv.waitOutcome = none) :
    (runCommand denv t).1 =
      .error ("Execution timed out after " ++ toString t ++ " seconds.") ∧
    (runCommand denv t).2 = ⟨true, true, true, true⟩ ∧
    processJobStatus (runCommand denv t).1 = "failed" ∧
    ∀ outcome, processJobStatus outcome = "completed" ∨ processJobStatus outcome = "failed" := by
  refine ⟨by simp [runCommand, hc, hw], by simp [runCommand, hc, hw],
    by simp [runCommand, hc, hw, processJobStatus], ?_⟩
  intro outcome
  cases outcome <;> simp [processJobStatus]

theorem timeout_path_amended_witness :
    (runCommand wDockerTimeout 1).1 =
      .error ("Execution timed out after " ++ toString 1 ++ " seconds.") ∧
    (runCommand wDockerTimeout 1).2 = ⟨true, true, true, true⟩ ∧
    processJobStatus (runCommand wDockerTimeout 1).1 = "failed" ∧
    ∀ outcome, processJobStatus outcome = "completed" ∨ processJobStatus outcome = "failed" :=
  timeout_path_amended wDockerTimeout 1 rfl rfl

/-- C5: an upload whose cumulative streamed size exceeds the 100 MB
limit is rejected with `StorageError("File size exceeds 100MB limit")`
at the first chunk that pushes the running total past the limit (the
remaining chunks are not consumed), the temp file is removed, no file
appears under the final storage name, and no ledger entry is created. -/
theorem upload_oversize_rejected (env : UploadEnv) (st : ArtifactState) (id : String)
    (chunks : List (List Nat)) (originator : String) (mime : Option String)
    (expires : Option Int) (ac : List (String × List String))
    (hchunks : ∀ c ∈ chunks, c ≠ [])
    (hover : maxUploadSize < sumLens chunks)
    (hfiles : ∀ p ∈ st.files, p.1 ≠ id)
    (hledger : ∀ m ∈ st.ledger, m.artifact_id ≠ id) :
    (uploadArtifact env st id chunks originator mime expires ac).result =
      .error "File size exceeds 100MB limit" ∧
    (uploadArtifact env st id chunks originator mime expires ac).state.files = st.files ∧
    (uploadArtifact env st id chunks originator mime expires ac).state.ledger = st.ledger ∧
    id ∉ (uploadArtifact env st id chunks originator mime expires ac).state.temps ∧
    (uploadArtifact env st id chunks originator mime expires ac).state.usage = st.usage ∧
    (uploadArtifact env st id chunks originator mime expires ac).chunksConsumed ≤ chunks.length ∧
    maxUploadSize < sumLens (chunks.take
      (uploadArtifact env st id chunks originator mime expires ac).chunksConsumed) ∧
    ∀ j < (uploadArtifact env st id chunks originator mime expires ac).chunksConsumed,
      sumLens (chunks.take j) ≤ maxUploadSize := by
  obtain ⟨hok, h1, hlen, htake, hall⟩ :=
    uploadStreamLoop_overflow chunks 0 [] hchunks (by omega) (by omega)
  simp only [uploadArtifact, hok, if_true, uploadCleanup]
  refine ⟨trivial, ?_, ?_, ?_, trivial, hlen, by simpa using htake, fun j hj => by simpa using hall j hj⟩
  · exact List.filter_eq_self.mpr (fun p hp => by simpa using hfiles p hp)
  · exact List.filter_eq_self.mpr (fun m hm => by simpa using hledger m hm)
  · intro hmem
    rw [List.mem_filter] at hmem
    simp at hmem

theorem upload_oversize_rejected_witness :
    (uploadArtifact wUpEnv wUpSt "a1" wChunks "rs_alice" none none []).result =
      .error "File size exceeds 100MB limit" ∧
    (uploadArtifact wUpEnv wUpSt "a1" wChunks "rs_alice" none none []).state.files =
      wUpSt.files ∧
    (uploadArtifact wUpEnv wUpSt "a1" wChunks "rs_alice" none none []).state.ledger =
      wUpSt.ledger ∧
    "a1" ∉ (uploadArtifact wUpEnv wUpSt "a1" wChunks "rs_alice" none none []).state.temps ∧
    (uploadArtifact wUpEnv wUpSt "a1" wChunks "rs_alice" none none []).state.usage =
      wUpSt.usage ∧
    (uploadArtifact wUpEnv wUpSt "a1" wChunks "rs_alice" none none []).chunksConsumed ≤
      wChunks.length ∧
    maxUploadSize < sumLens (wChunks.take
      (uploadArtifact wUpEnv wUpSt "a1" wChunks "rs_alice" none none []).chunksConsumed) ∧
    ∀ j < (uploadArtifact wUpEnv wUpSt "a1" wChunks "rs_alice" none none []).chunksConsumed,
      sumLens (wChunks.take j) ≤ maxUploadSize :=
  upload_oversize_rejected wUpEnv wUpSt "a1" wChunks "rs_alice" none none []
    (by
      intro c hc
      rw [wChunks, List.mem_singleton] at hc
      subst hc
      intro h
      have hl := congrArg List.length h
      simp at hl)
    (by
      show maxUploadSize < sumLens [List.replicate (maxUploadSize + 1) 0]
      rw [sumLens, sumLens, List.length_replicate]
      omega)
    (by simp [wUpSt])
    (by simp [wUpSt])

/-- C6 counterexample: for the delete path, an access-denied violation
is not distinguishable from not-found: deleting an existing artifact as
a non-originator with an empty write list and deleting a nonexistent
artifact both return `False` with the identical state, because
`delete_artifact` catches its own `StorageError("Delete permission
denied")` and returns `False`. -/
theorem delete_denied_equals_not_found :
    findMeta wArtSt.ledger "a1" = some wMeta ∧
    checkAccess wMeta "rs_bob" "write" = false ∧
    findMeta wArtSt.ledger "zz" = none ∧
    managerDeleteArtifact wArtSt "a1" "rs_bob" = (false, wArtSt) ∧
    managerDeleteArtifact wArtSt "zz" "rs_bob" = (false, wArtSt) ∧
    managerDeleteArtifact wArtSt "a1" "rs_bob" = managerDeleteArtifact wArtSt "zz" "rs_bob" := by
  refine ⟨by decide, by decide, by decide, by decide, by decide, by decide⟩

/-- C6 amended: access is granted exactly to the originator or members
of `accessControl[permission]` (permission `read` for download, `write`
for delete).  For download, denial raises `StorageError("Access denied
for artifact '<id>'")`, which differs from the not-found error; for
delete, both denial and not-found yield the same `False` outcome. -/
theorem artifact_access_control_amended (st : ArtifactState) (now : Int)
    (id q : String) (metadata : ArtifactMetadata)
    (hfind : findMeta st.ledger id = some metadata)
    (hq : ¬(q = "")) :
    (∀ perm, checkAccess metadata q perm =
      (metadata.originator = q ∨ q ∈ dictGet metadata.access_control perm : Bool)) ∧
    (checkAccess metadata q "read" = false →
      downloadArtifact st now id (some q) =
        .error ("Access denied for artifact '" ++ id ++ "'")) ∧
    (checkAccess metadata q "write" = true →
      (managerDeleteArtifact st id q).1 = true) ∧
    (checkAccess metadata q "write" = false →
      managerDeleteArtifact st id q = (false, st)) ∧
    (∀ id2, findMeta st.ledger id2 = none →
      downloadArtifact st now id2 (some q) =
        .error ("Artifact '" ++ id2 ++ "' not found") ∧
      managerDeleteArtifact st id2 q = (false, st)) ∧
    (∀ id2, ("Access denied for artifact '" ++ id2 ++ "'" : String) ≠
      "Artifact '" ++ id2 ++ "' not found") := by
  refine ⟨?_, ?_, ?_, ?_, ?_, fun id2 => download_error_messages_distinct id2⟩
  · intro perm
    by_cases horig : metadata.originator = q
    · simp [checkAccess, horig]
    · simp [checkAccess, horig]
  · intro hdeny
    simp only [downloadArtifact, hfind]
    rw [if_pos ⟨by simpa using hq, by simpa using hdeny⟩]
  · intro hacc
    simp [managerDeleteArtifact, hfind, hacc]
  · intro hdeny
    simp [managerDeleteArtifact, hfind, hdeny]
  · intro id2 hnone
    refine ⟨by simp [downloadArtifact, hnone], by simp [managerDeleteArtifact, hnone]⟩

theorem artifact_access_control_amended_witness :
    (∀ perm, checkAccess wMeta "rs_bob" perm =
      (wMeta.originator = "rs_bob" ∨ "rs_bob" ∈ dictGet wMeta.access_control perm : Bool)) ∧
    (checkAccess wMeta "rs_bob" "read" = false →
      downloadArtifact wArtSt 100 "a1" (some "rs_bob") =
        .error ("Access denied for artifact '" ++ "a1" ++ "'")) ∧
    (checkAccess wMeta "rs_bob" "write" = true →
      (managerDeleteArtifact wArtSt "a1" "rs_bob").1 = true) ∧
    (checkAccess wMeta "rs_bob" "write" = false →
      managerDeleteArtifact wArtSt "a1" "rs_bob" = (false, wArtSt)) ∧
    (∀ id2, findMeta wArtSt.ledger id2 = none →
      downloadArtifact wArtSt 100 id2 (some "rs_bob") =
        .error ("Artifact '" ++ id2 ++ "' not found") ∧
      managerDeleteArtifact wArtSt id2 "rs_bob" = (false, wArtSt)) ∧
    (∀ id2, ("Access denied for artifact '" ++ id2 ++ "'" : String) ≠
      "Artifact '" ++ id2 ++ "' not found") :=
  artifact_access_control_amended wArtSt 100 "a1" "rs_bob" wMeta (by decide) (by decide)

/-- C7 (code-bug exhibit): the cleanup sweep finds the expired artifact
and calls `delete_artifact(artifact_id, "system")`, but `"system"` is
neither the originator nor in the artifact's write list, so the delete
is permission-denied, returns `False`, and the sweep leaves the expired
artifact's bytes and metadata fully in place. -/
theorem cleanup_expired_leaves_artifact :
    getExpiredArtifacts wStExpired 100 = ["a1"] ∧
    checkAccess wMetaExpired "system" "write" = false ∧
    managerDeleteArtifact wStExpired "a1" "system" = (false, wStExpired) ∧
    cleanupExpiredArtifacts wStExpired 100 = wStExpired ∧
    findMeta (cleanupExpiredArtifacts wStExpired 100).ledger "a1" = some wMetaExpired ∧
    (cleanupExpiredArtifacts wStExpired 100).files = [("a1", [1, 2, 3])] := by
  refine ⟨by decide, by decide, by decide, by decide, by decide, by decide⟩

end EchoCore
